import Mathlib

/-!
Verification development for the Root-Cause-Analysis application's core:
the vector similarity store (`app/rca/index.py`), the query engine
(`app/rca/search.py`), the narrowing helpers (`app/rca/llm_narrow.py`),
the ingestion endpoint (`app/backend/main.py`, `app/ingest/build_index.py`)
and the frontend pruning policy (`frontend/streamlit_app.py`).

Modelling conventions:
* Python floats are modelled as real numbers (`ℝ`); exact narrowing-score
  arithmetic (`llm_narrow.apply_answer`, the frontend gap test) uses `ℚ`,
  where the decimal constants 0.07 and 0.15 are exact.
* Python strings are Lean `String`s; where character-level reasoning is
  needed (strip/lower/substring in `llm_narrow.py`) the text is handled as
  `List Char` (`String.toList`), with `.strip()` as dropping whitespace on
  both ends and `.lower()` as `Char.toLower` per character.
* Fallible Python code returns `Except PyErr _`; `PyErr` covers the
  exceptions relevant here (`TypeError` on an unexpected keyword argument,
  numpy's `ValueError` on a shape mismatch).
* `np.argsort` (ascending on the negated scores) is modelled as the stable
  argsort: descending by score, ties by ascending index.
-/

/-- The Python exceptions the embedded code can raise. -/
inductive PyErr where
  | typeError
  | valueError
deriving DecidableEq, Repr

/-- Holds of an `Except` value when it is `ok` and its payload satisfies `P`
(vacuously true on `error`). -/
def onOk {ε α : Type} (P : α → Prop) : Except ε α → Prop
  | Except.ok a => P a
  | Except.error _ => True

/-- Python truthiness of an optional string (`if component:` in
`index.py:88`): `None` and `""` are falsy. -/
def truthy : Option String → Bool
  | none => false
  | some s => !(s == "")

/-- Python `str.lower()`: per-character lowercasing. -/
def pyLowerS (s : String) : String := String.mk (s.toList.map Char.toLower)

/-! ## `app/rca/index.py` — the vector store -/

/-- The `1e-10` added to every norm in `_normalise` (`index.py:16`). -/
noncomputable def epsNorm : ℝ := 1 / 10 ^ 10

/-- Sum of squares of a vector's entries (the square of its L2 norm). -/
noncomputable def sumSq (v : List ℝ) : ℝ := (v.map (fun x => x * x)).sum

/-- The denominator `np.linalg.norm(v) + 1e-10` of `_normalise`
(`index.py:16`). -/
noncomputable def normDenom (v : List ℝ) : ℝ := Real.sqrt (sumSq v) + epsNorm

/-- `_normalise` on a single vector (the `ndim == 1` branch of
`index.py:15-17`): divide every entry by the norm plus `1e-10`. -/
noncomputable def normalise1 (v : List ℝ) : List ℝ :=
  v.map (fun x => x / normDenom v)

/-- `_normalise` on a matrix (the `ndim == 2` branch, `axis=1,
keepdims=True`): each row is divided by its own norm plus `1e-10`. -/
noncomputable def normalise2 (rows : List (List ℝ)) : List (List ℝ) :=
  rows.map normalise1

/-- Inner product (`vecs @ q.T` for one row, `index.py:93`); row lengths are
checked equal before this is used. -/
noncomputable def dotR (a b : List ℝ) : ℝ := (List.zipWith (fun x y => x * y) a b).sum

/-- One entry of `RCAIndex.meta`: the CSV row's fields plus the stored
(normalised) embedding (`index.py:62-65`). `model` is `none` when the row
dict has no `"model"` key (rows appended by `/ingest` drop that column). -/
structure MetaRow where
  component : String
  model : Option String
  fault_description : String
  root_cause : String
  corrective_action : String
  embedding : List ℝ

/-- The default row backing `getD` lookups; every lookup in the development
is at an index that is in range, so the default is never observed. -/
def defaultMetaRow : MetaRow :=
  { component := "", model := none, fault_description := "",
    root_cause := "", corrective_action := "", embedding := [] }

/-- One total order refining "larger score first": ties by ascending
index. This backs `argsortDesc`, a *determinization* of `np.argsort(-sims)`
(`index.py:94`) — numpy's default `kind='quicksort'` is not stable, so the
tie order below is one admissible choice, not a guarantee of the program;
the faithful, tie-order-free semantics of the call is `ValidDescOrder` /
`searchSpec` further down. -/
def keyRel (sims : List ℝ) (i j : Nat) : Prop :=
  sims.getD j 0 < sims.getD i 0 ∨ (sims.getD i 0 = sims.getD j 0 ∧ i ≤ j)

noncomputable instance keyRelDec (sims : List ℝ) : DecidableRel (keyRel sims) :=
  fun i j => by unfold keyRel; infer_instance

instance keyRelTotal (sims : List ℝ) : IsTotal Nat (keyRel sims) := by
  constructor
  intro i j
  rcases lt_trichotomy (sims.getD i 0) (sims.getD j 0) with h | h | h
  · exact Or.inr (Or.inl h)
  · rcases Nat.le_total i j with hij | hij
    · exact Or.inl (Or.inr ⟨h, hij⟩)
    · exact Or.inr (Or.inr ⟨h.symm, hij⟩)
  · exact Or.inl (Or.inl h)

instance keyRelTrans (sims : List ℝ) : IsTrans Nat (keyRel sims) := by
  constructor
  intro i j k hij hjk
  rcases hij with h1 | ⟨e1, l1⟩
  · rcases hjk with h2 | ⟨e2, _⟩
    · exact Or.inl (lt_trans h2 h1)
    · exact Or.inl (e2 ▸ h1)
  · rcases hjk with h2 | ⟨e2, l2⟩
    · exact Or.inl (e1 ▸ h2)
    · exact Or.inr ⟨e1.trans e2, le_trans l1 l2⟩

/-- One admissible output of `np.argsort(-sims)` (`index.py:94`): the
indices `0..len(sims)-1` by descending score, ties by ascending index.
numpy does not guarantee this tie order (default quicksort, unstable);
this determinization is used only where the choice cannot matter (the
error and filtered-empty branches) and to show the order-nondeterministic
semantics `searchSpec` is satisfiable — see `searchSpec_search`. -/
noncomputable def argsortDesc (sims : List ℝ) : List Nat :=
  List.insertionSort (keyRel sims) (List.range sims.length)

/-- The local `ids` of `search` (`index.py:87-89`): all positions, or only
those whose component matches the truthy filter case-insensitively. -/
def searchIds (meta : List MetaRow) (component : Option String) : List Nat :=
  if truthy component
  then (List.range meta.length).filter
    (fun i => pyLowerS (meta.getD i defaultMetaRow).component ==
              pyLowerS (component.getD ""))
  else List.range meta.length

/-- The local `vecs` of `search` (`index.py:92`): the selected entries'
stored embeddings. -/
noncomputable def searchVecs (meta : List MetaRow) (component : Option String) :
    List (List ℝ) :=
  (searchIds meta component).map (fun i => (meta.getD i defaultMetaRow).embedding)

/-- The local `sims` of `search` (`index.py:93`): inner products of the
selected embeddings with the normalised query. -/
noncomputable def searchSims (meta : List MetaRow) (query_vec : List ℝ)
    (component : Option String) : List ℝ :=
  (searchVecs meta component).map (fun e => dotR e (normalise1 query_vec))

/-- `RCAIndex.search` (`index.py:84-95`). Normalises the query, restricts to
the indices whose component matches the (truthy) filter case-insensitively,
returns `[]` early when the filter leaves nothing, computes inner products,
and returns the top `top_k` `(position, score)` pairs. When no filter is
given and the store is empty, `np.array([])` has shape `(0,)` and
`vecs @ q.T` raises `ValueError` (a numpy shape mismatch); the same
exception models a stored embedding whose length differs from the query's
(ragged or mismatched matmul). The `ok` branch fixes one admissible
argsort order (`argsortDesc`); since numpy leaves the order of tied scores
unspecified, the faithful semantics of the function is the relation
`searchSpec` below, of which this function is one refinement. -/
noncomputable def search (meta : List MetaRow) (query_vec : List ℝ) (top_k : Nat)
    (component : Option String) : Except PyErr (List (Nat × ℝ)) :=
  if truthy component && (searchIds meta component).isEmpty then Except.ok []
  else if (searchVecs meta component).isEmpty then Except.error PyErr.valueError
  else if (searchVecs meta component).any (fun e => e.length != query_vec.length)
  then Except.error PyErr.valueError
  else Except.ok
    (((argsortDesc (searchSims meta query_vec component)).take top_k).map
      (fun o => ((searchIds meta component).getD o 0,
                 (searchSims meta query_vec component).getD o 0)))

/-- Exactly what numpy guarantees of `order = np.argsort(-sims)`
(`index.py:94`): the result is a permutation of `0..len(sims)-1` along
which the scores are non-increasing. The default `kind='quicksort'` is
documented as not stable, so the relative order of equal scores is
unspecified and the model constrains it no further. -/
def ValidDescOrder (sims : List ℝ) (ord : List Nat) : Prop :=
  ord.Perm (List.range sims.length) ∧
  ord.Pairwise (fun i j => sims.getD j 0 ≤ sims.getD i 0)

/-- `RCAIndex.search` as a relation between its inputs and the returned
value: the exact branch structure of `search` (`index.py:84-95`), with the
argsort order existentially quantified over every order numpy's contract
admits (`ValidDescOrder`). This is the faithful semantics of the function;
`search` picks one admissible order (`searchSpec_search`). -/
def searchSpec (meta : List MetaRow) (query_vec : List ℝ) (top_k : Nat)
    (component : Option String) (res : Except PyErr (List (Nat × ℝ))) : Prop :=
  if truthy component && (searchIds meta component).isEmpty then res = Except.ok []
  else if (searchVecs meta component).isEmpty then res = Except.error PyErr.valueError
  else if (searchVecs meta component).any (fun e => e.length != query_vec.length)
  then res = Except.error PyErr.valueError
  else ∃ ord, ValidDescOrder (searchSims meta query_vec component) ord ∧
    res = Except.ok ((ord.take top_k).map
      (fun o => ((searchIds meta component).getD o 0,
                 (searchSims meta query_vec component).getD o 0)))

/-! ## `RCAIndex.save` (`index.py:31-37`) — on-disk states during a write

`save` opens `META_PATH` with mode `"w"` — which truncates the existing
file in place — and then `json.dump` writes the serialised metadata into
it. There is no temporary file and no rename. The model below lists every
on-disk state of the metadata file a crash can leave behind: the state
before `save` started, and the state after any prefix of the new
serialisation has been written (index 0 = just after the truncating
`open`). -/

/-- All on-disk contents of the metadata file observable if the process
crashes at an arbitrary point of `save` (contents as a character list;
`none` = file does not exist). -/
def saveDiskStates (old : Option (List Char)) (newJson : List Char) :
    List (Option (List Char)) :=
  old :: (List.range (newJson.length + 1)).map (fun k => some (newJson.take k))

/-- A JSON string literal (escaping of inner quotes is irrelevant to the
development and omitted). -/
def jsonStr (s : String) : String := "\"" ++ s ++ "\""

/-- The serialisation `json.dump(self.meta, f)` writes for one row: the
row's fields plus its stored embedding, numbers rendered by `numStr`
(the exact float rendering is irrelevant here). -/
def rowJson (numStr : ℝ → String) (r : MetaRow) : String :=
  "\x7b\"component\": " ++ jsonStr r.component ++
  (match r.model with
   | some m => ", \"model\": " ++ jsonStr m
   | none => "") ++
  ", \"fault_description\": " ++ jsonStr r.fault_description ++
  ", \"root_cause\": " ++ jsonStr r.root_cause ++
  ", \"corrective_action\": " ++ jsonStr r.corrective_action ++
  ", \"embedding\": [" ++ String.intercalate ", " (r.embedding.map numStr) ++ "]\x7d"

/-- The serialisation of the whole metadata list: a JSON array. It always
starts with `[`, so it is never the empty string. -/
def metaJson (numStr : ℝ → String) (meta : List MetaRow) : String :=
  "[" ++ String.intercalate ", " (meta.map (rowJson numStr)) ++ "]"

/-! ## `app/rca/search.py` — `QueryEngine.diagnose` -/

/-- One entry of the list `diagnose` returns (`search.py:16-23`). -/
structure Candidate where
  component : String
  model : Option String
  matched_fault_description : String
  root_cause : String
  corrective_action : String
  similarity : ℝ

/-- Python `row.get("model") or None` (`search.py:18`): a missing or empty
model becomes `None`. -/
def pyOrNone : Option String → Option String
  | none => none
  | some s => if s == "" then none else some s

/-- The dict built for one search hit (`search.py:16-23`). -/
def rowToCandidate (r : MetaRow) (score : ℝ) : Candidate :=
  { component := r.component, model := pyOrNone r.model,
    matched_fault_description := r.fault_description,
    root_cause := r.root_cause, corrective_action := r.corrective_action,
    similarity := score }

/-- The parameter names `RCAIndex.search` accepts besides `self`
(`index.py:84`). -/
def searchKwargNames : List String := ["query_vec", "top_k", "component"]

/-- The keyword arguments `QueryEngine.diagnose` passes to
`self.index.search` (`search.py:12`). -/
def diagnoseCallKwargNames : List String := ["top_k", "component", "model"]

/-- `QueryEngine.diagnose` (`search.py:10-24`): embeds the query text, then
calls `self.index.search(qv, top_k=top_k, component=component,
model=model)`. Python raises `TypeError` when a call passes a keyword
argument the callee's signature does not have, before the callee body
runs; the guard below performs exactly that check against
`searchKwargNames`. On a (hypothetical) successful call the hits are
mapped to `Candidate` records from `self.index.meta`. -/
noncomputable def diagnose (embed_text : String → List ℝ) (meta : List MetaRow)
    (query : String) (top_k : Nat) (component _model : Option String) :
    Except PyErr (List Candidate) :=
  let qv := embed_text query
  if diagnoseCallKwargNames.all (fun kw => searchKwargNames.contains kw) then
    match search meta qv top_k component with
    | Except.error e => Except.error e
    | Except.ok results =>
        Except.ok (results.map (fun p => rowToCandidate (meta.getD p.1 defaultMetaRow) p.2))
  else Except.error PyErr.typeError

/-! ## `app/backend/main.py` — ingestion, and `app/ingest/build_index.py` -/

/-- Whitespace for Python's default `str.strip()` / `str.split()`. -/
def isPyWS (c : Char) : Bool := c.isWhitespace

/-- Python `str.strip()` on a character list: drop whitespace from both
ends. -/
def pyTrimL (l : List Char) : List Char :=
  ((l.dropWhile isPyWS).reverse.dropWhile isPyWS).reverse

/-- Python `str.strip()` on a string. -/
def pyTrimS (s : String) : String := String.mk (pyTrimL s.toList)

/-- `normalise_component` (`main.py:34-42`): strip, lowercase, then map the
three plural synonyms to their singular form. -/
def normalise_component (value : String) : String :=
  let s := pyLowerS (pyTrimS value)
  if s == "motors" then "motor"
  else if s == "pumps" then "pump"
  else if s == "compressors" then "compressor"
  else s

/-- First character class of the `_wordish` regex `^[a-z0-9][a-z0-9 _\-\/]{0,40}$`
(`main.py:32`). -/
def wordishHeadChar (c : Char) : Bool :=
  ('a' ≤ c && c ≤ 'z') || ('0' ≤ c && c ≤ '9')

/-- Repeated character class of the `_wordish` regex. -/
def wordishTailChar (c : Char) : Bool :=
  wordishHeadChar c || c == ' ' || c == '_' || c == '-' || c == '/'

/-- The `_wordish` regex as a predicate: one head character, then at most
40 tail characters. -/
def wordish (s : String) : Bool :=
  match s.toList with
  | [] => false
  | c :: rest => wordishHeadChar c && decide (rest.length ≤ 40) && rest.all wordishTailChar

/-- Worker for `pySplitWS`: walk the characters, accumulating the current
word (reversed) and flushing it at whitespace. -/
def splitWSAux : List Char → List Char → List (List Char)
  | [], acc => if acc.isEmpty then [] else [acc.reverse]
  | c :: rest, acc =>
    if isPyWS c then
      if acc.isEmpty then splitWSAux rest [] else acc.reverse :: splitWSAux rest []
    else splitWSAux rest (c :: acc)

/-- Python `s.split()`: the maximal whitespace-free runs of `s`. -/
def pySplitWS (s : String) : List (List Char) := splitWSAux s.toList []

/-- `is_reasonable_component` (`main.py:44-58`). -/
def is_reasonable_component (s : String) : Bool :=
  if s == "" then false
  else if s.toList.contains ',' || s.toList.contains '.' then false
  else if 3 < (pySplitWS s).length then false
  else wordish s

/-- A row of an uploaded CSV after `df[REQUIRED_COLS].to_dict(...)`
(`main.py:156`): exactly the four required columns (the optional `model`
column is dropped by the `/ingest` endpoint). -/
structure UploadRow where
  component : String
  fault_description : String
  root_cause : String
  corrective_action : String
deriving DecidableEq, Repr

/-- The upload's rows after component normalisation and the
`is_reasonable_component` filter (`main.py:149-152`). -/
def ingestValidRows (rows : List UploadRow) : List UploadRow :=
  (rows.map (fun r => { r with component := normalise_component r.component })).filter
    (fun r => is_reasonable_component r.component)

/-- The de-duplication of `/ingest` (`main.py:158-160`): keep only rows
whose `fault_description` is not already among the stored entries'. This
is the only de-duplication the endpoint performs; rows of the same batch
are not compared with each other. -/
def ingestNewRows (meta : List MetaRow) (rows : List UploadRow) : List UploadRow :=
  let existing := meta.map (fun m => m.fault_description)
  (ingestValidRows rows).filter (fun r => !(existing.contains r.fault_description))

/-- `RCAIndex.add` as applied by `/ingest` (`index.py:68-82`,
`main.py:165-166`): embed each new row's description, normalise row-wise,
and append the rows (now carrying their embeddings, and no `model` key)
to the metadata list. -/
noncomputable def addMetaUpload (embed_texts : String → List ℝ)
    (meta : List MetaRow) (rows : List UploadRow) : List MetaRow :=
  let vecs := normalise2 (rows.map (fun r => embed_texts r.fault_description))
  meta ++ List.zipWith (fun (r : UploadRow) v =>
    { component := r.component, model := none,
      fault_description := r.fault_description, root_cause := r.root_cause,
      corrective_action := r.corrective_action, embedding := v }) rows vecs

/-- The `/ingest` endpoint's effect on the stored metadata
(`main.py:146-166`): validate, de-duplicate against the store, embed and
add. -/
noncomputable def ingestMeta (embed_texts : String → List ℝ)
    (meta : List MetaRow) (rows : List UploadRow) : List MetaRow :=
  addMetaUpload embed_texts meta (ingestNewRows meta rows)

/-- A row as `read_csv_rows` returns it (`data_access.py:8-19`): the four
required columns plus `model` (added as `""` when absent), all strings. -/
structure CsvRow where
  component : String
  model : String
  fault_description : String
  root_cause : String
  corrective_action : String
deriving DecidableEq, Repr

/-- `RCAIndex.build` from CSV rows (`index.py:53-66`, `build_index.py:17-21`,
`main.py:93-97`): normalise the embeddings row-wise and store every row,
in order, with its embedding. No de-duplication happens on this path. -/
noncomputable def buildMeta (embed_texts : String → List ℝ)
    (rows : List CsvRow) : List MetaRow :=
  let vecs := normalise2 (rows.map (fun r => embed_texts r.fault_description))
  List.zipWith (fun (r : CsvRow) v =>
    { component := r.component, model := some r.model,
      fault_description := r.fault_description, root_cause := r.root_cause,
      corrective_action := r.corrective_action, embedding := v }) rows vecs

/-! ## `app/rca/llm_narrow.py` — question proposal and answer scoring

Question/keyword text is handled at the character level (`List Char`):
Python `str.strip()` is `pyTrimL`, `str.lower()` is `pyLowerL`, and the
substring test `a in b` is `isSubL`. -/

/-- Python `str.lower()` on a character list. -/
def pyLowerL (l : List Char) : List Char := l.map Char.toLower

/-- Python `s.strip().lower()`, the normal form used for ban-set membership
and the similarity test (`llm_narrow.py:23,26,37-38,74`). -/
def pyFoldL (l : List Char) : List Char := pyLowerL (pyTrimL l)

/-- Python `needle in hay` on strings: substring (infix) containment. -/
def isSubL (needle hay : List Char) : Bool := decide (needle <:+: hay)

/-- A parsed reply of the question provider: the `question`/`keywords`
fields of the model's JSON (`llm_narrow.py:69-74`). A malformed reply
(parse error, `llm_narrow.py:70-71`) is `{question := none, keywords := []}`. -/
structure LLMReply where
  question : Option (List Char)
  keywords : List (List Char)

/-- The ban sets of `propose_question` (`llm_narrow.py:37-38`): strip and
lowercase each entry, dropping entries that strip to nothing. (Python
builds a set; only membership is used, so a list suffices.) -/
def bannedSetL (banned : List (List Char)) : List (List Char) :=
  (banned.filter (fun b => !(pyTrimL b).isEmpty)).map pyFoldL

/-- `_similar_question` (`llm_narrow.py:25-29`): fold the question; an empty
fold is never similar; otherwise similar iff some banned question's fold is
equal, contains it, or is contained in it. -/
def similarQuestion (q : List Char) (bannedQSet : List (List Char)) : Bool :=
  if (pyFoldL q).isEmpty then false
  else bannedQSet.any (fun b =>
    pyFoldL q == b || isSubL (pyFoldL q) b || isSubL b (pyFoldL q))

/-- `_overlaps_banned` (`llm_narrow.py:22-23`): some keyword's fold is in
the banned set. -/
def overlapsBanned (kws : List (List Char)) (bannedKwSet : List (List Char)) : Bool :=
  kws.any (fun k => bannedKwSet.contains (pyFoldL k))

/-- `question = (data.get("question") or "").strip()` (`llm_narrow.py:73`). -/
def parsedQuestion (reply : LLMReply) : List Char := pyTrimL (reply.question.getD [])

/-- `keywords = [str(k).strip().lower() for k in ... if str(k).strip()]`
(`llm_narrow.py:74`). -/
def parsedKeywords (reply : LLMReply) : List (List Char) :=
  (reply.keywords.filter (fun k => !(pyTrimL k).isEmpty)).map pyFoldL

/-- One iteration of the retry loop (`llm_narrow.py:60-78`): accept the
reply's question iff it is non-empty, not similar to a banned question and
its keywords avoid the banned keywords; on acceptance return the question
with at most 6 keywords. -/
def attemptResult (reply : LLMReply) (bannedKwSet bannedQSet : List (List Char)) :
    Option (List Char × List (List Char)) :=
  if !(parsedQuestion reply).isEmpty &&
     !similarQuestion (parsedQuestion reply) bannedQSet &&
     !overlapsBanned (parsedKeywords reply) bannedKwSet
  then some (parsedQuestion reply, (parsedKeywords reply).take 6)
  else none

/-- `propose_question` (`llm_narrow.py:31-80`). The OpenAI chat call (with
its growing message list) is abstracted as `provider`, a function from the
attempt number to the parsed reply; the loop `for _ in range(3)` makes at
most three attempts and returns the first accepted proposal, else `none`
(the `{"question": None, ...}` fall-through of line 80). The query text and
candidate list only shape the provider's prompt, so they are absorbed into
`provider`. -/
def propose_question (provider : Nat → LLMReply)
    (banned_keywords banned_questions : List (List Char)) :
    Option (List Char × List (List Char)) :=
  let bannedKwSet := bannedSetL banned_keywords
  let bannedQSet := bannedSetL banned_questions
  [0, 1, 2].findSome? (fun n => attemptResult (provider n) bannedKwSet bannedQSet)

/-- A narrowing candidate as the frontend and `/narrow/answer` pass it
around: the JSON dict's fields, `none` for a missing key. `similarity` is
taken as always present (every candidate is born from a diagnose hit,
which sets it; Python reads it with `c.get("similarity", 0.0)`). -/
structure NarrowCand where
  component : Option String
  model : Option String
  matched_fault_description : Option String
  fault_description : Option String
  root_cause : Option String
  corrective_action : Option String
  similarity : ℚ
deriving DecidableEq, Repr

/-- Python `a or b` for an optional string `a`: `b` when `a` is missing or
empty. -/
def pyStrOr (a : Option String) (b : String) : String :=
  match a with
  | none => b
  | some s => if s == "" then b else s

/-- The merged, lowercased search text of a candidate
(`llm_narrow.py:91-94`): `" ".join([fault, cause, action]).lower()` where
`fault` is `matched_fault_description or fault_description or ""`. -/
def combinedText (c : NarrowCand) : List Char :=
  pyLowerL ((pyStrOr c.matched_fault_description (pyStrOr c.fault_description "") ++ " " ++
             pyStrOr c.root_cause "" ++ " " ++
             pyStrOr c.corrective_action "").toList)

/-- `hits = sum(1 for k in keywords if k and k.lower() in text)`
(`llm_narrow.py:95`). -/
def hitCount (keywords : List String) (c : NarrowCand) : Nat :=
  (keywords.filter (fun k => !(k == "") && isSubL (pyLowerL k.toList) (combinedText c))).length

/-- `BOOST = 0.07` (`llm_narrow.py:88`), exact as a rational. -/
def BOOST : ℚ := 7 / 100

/-- `CAP = 0.15` (`llm_narrow.py:89`), exact as a rational. -/
def CAP : ℚ := 15 / 100

/-- The per-candidate update of `apply_answer` (`llm_narrow.py:90-99`):
`delta = min(CAP, BOOST * hits)`, negated on a "no", added to the
candidate's similarity. -/
def applyDelta (answer_yes : Bool) (keywords : List String) (c : NarrowCand) : NarrowCand :=
  let delta0 := min CAP (BOOST * hitCount keywords c)
  let delta := if answer_yes then delta0 else -delta0
  { c with similarity := c.similarity + delta }

/-- `apply_answer` (`llm_narrow.py:82-100`): update every candidate, then
`sorted(candidates, key=similarity, reverse=True)` — a stable descending
sort (insertion sort with ≥ keeps the original order of equal scores, as
Python's stable sort does). -/
def apply_answer (answer_yes : Bool) (keywords : List String)
    (candidates : List NarrowCand) : List NarrowCand :=
  List.insertionSort (fun a b => b.similarity ≤ a.similarity)
    (candidates.map (applyDelta answer_yes keywords))

/-! ## `frontend/streamlit_app.py` — pruning policy and stop condition -/

/-- `NARROW_MAX_STEPS = 6` (`streamlit_app.py:243`). -/
def NARROW_MAX_STEPS : Nat := 6

/-- `GAP_GOOD = 0.15` (`streamlit_app.py:244`), exact as a rational. -/
def GAP_GOOD : ℚ := 15 / 100

/-- `SHORTLIST_COUNT = 1` (`streamlit_app.py:245`). -/
def SHORTLIST_COUNT : Nat := 1

/-- Default candidate backing in-range `getD` lookups. -/
def defaultNarrowCand : NarrowCand :=
  { component := none, model := none, matched_fault_description := none,
    fault_description := none, root_cause := none, corrective_action := none,
    similarity := 0 }

/-- `should_stop` (`streamlit_app.py:247-257`): stop on a shortlist of ≤ 1,
on reaching the step budget, or — from step 1 on — when the two top
similarities differ by at least `GAP_GOOD`. -/
def should_stop (cands : List NarrowCand) (step : Nat) : Bool :=
  if cands.length ≤ SHORTLIST_COUNT then true
  else if NARROW_MAX_STEPS ≤ step then true
  else if 2 ≤ cands.length then
    let s0 := (cands.getD 0 defaultNarrowCand).similarity
    let s1 := (cands.getD 1 defaultNarrowCand).similarity
    decide (GAP_GOOD ≤ s0 - s1) && decide (1 ≤ step)
  else false

/-- First pruning step after an answer (`streamlit_app.py:342-343`). -/
def pruneStage1 (cands : List NarrowCand) (step : Nat) : List NarrowCand :=
  if 5 < cands.length ∧ 1 ≤ step then cands.take 5 else cands

/-- Second pruning step (`streamlit_app.py:344-345`), applied to the result
of the first. -/
def pruneStage2 (cands : List NarrowCand) (step : Nat) : List NarrowCand :=
  if 3 < (pruneStage1 cands step).length ∧ 2 ≤ step
  then (pruneStage1 cands step).take 3 else pruneStage1 cands step

/-- Third pruning step (`streamlit_app.py:346-347`): truncate to the single
top candidate when `step >= 3` **or** `should_stop` already holds of the
current shortlist. -/
def pruneStage3 (cands : List NarrowCand) (step : Nat) : List NarrowCand :=
  if 1 < (pruneStage2 cands step).length ∧
     (3 ≤ step ∨ should_stop (pruneStage2 cands step) step = true)
  then (pruneStage2 cands step).take 1 else pruneStage2 cands step

/-- The complete pruning the answer handler performs
(`streamlit_app.py:341-347`). -/
def pruneAfterAnswer (cands : List NarrowCand) (step : Nat) : List NarrowCand :=
  pruneStage3 cands step

/-- `nar["done"]` as set right after pruning (`streamlit_app.py:349`). -/
def doneAfterAnswer (cands : List NarrowCand) (step : Nat) : Bool :=
  (pruneAfterAnswer cands step).length ≤ 1 || should_stop (pruneAfterAnswer cands step) step

/-- The pruning policy as the specification words it (stated from the spec
for comparison with the code's `pruneAfterAnswer`): once `step ≥ 1`
truncate to top 5, once `step ≥ 2` to top 3, once `step ≥ 3` to top 1 —
and no other truncation. -/
def specPolicyPrune (cands : List NarrowCand) (step : Nat) : List NarrowCand :=
  let c1 := if 1 ≤ step then cands.take 5 else cands
  let c2 := if 2 ≤ step then c1.take 3 else c1
  if 3 ≤ step then c2.take 1 else c2

/-! ## Theorems -/

/-- `dotR` against a zero vector on the right is zero. -/
lemma dotR_replicate_zero (e : List ℝ) : ∀ n : Nat, dotR e (List.replicate n 0) = 0 := by
  induction e with
  | nil => intro n; simp [dotR]
  | cons x xs ih =>
    intro n
    cases n with
    | zero => simp [dotR]
    | succ m =>
      have := ih m
      simp [dotR, List.replicate_succ] at this ⊢
      simpa [dotR] using this

/-- C1. The spec claims `diagnose(queryText, topK, component?, model?)`
obtains an embedding, delegates to `VectorStore.search` with the filters
and returns the ordered candidate list. In the code, `QueryEngine.diagnose`
passes `model=model` to `RCAIndex.search`, whose signature has no `model`
parameter, so Python raises `TypeError` on every call — including calls
with `model=None` — before any search happens. -/
theorem c1_diagnose_raises_typeerror :
    ∀ (embed_text : String → List ℝ) (meta : List MetaRow) (query : String)
      (top_k : Nat) (component model : Option String),
    diagnose embed_text meta query top_k component model = Except.error PyErr.typeError := by
  intro embed_text meta query top_k component model
  rfl

/-- C2. The spec claims `search` on an empty store never raises. In the
code the filtered-empty case does return `[]`, but an empty store with no
component filter reaches `np.array([]) @ q.T`, a numpy `ValueError`:
evaluated here at the concrete query `[1.0]`, `top_k=3`. -/
theorem c2_search_empty_store :
    search [] [(1 : ℝ)] 3 none = Except.error PyErr.valueError ∧
    search [] [(1 : ℝ)] 3 (some "pump") = Except.ok [] := by
  exact ⟨rfl, rfl⟩

/-- C10. Normalisation is total: the denominator `norm + 1e-10` is strictly
positive for every vector, the all-zero vector normalises to itself, and a
zero query vector has zero inner product against every stored embedding
(so `search` scores it 0 everywhere rather than failing on the division). -/
theorem c10_normalisation_total :
    (∀ v : List ℝ, 0 < normDenom v) ∧
    (∀ n : Nat, normalise1 (List.replicate n 0) = List.replicate n 0) ∧
    (∀ (e : List ℝ) (n : Nat), dotR e (normalise1 (List.replicate n 0)) = 0) := by
  have hd : ∀ v : List ℝ, 0 < normDenom v := by
    intro v
    have h1 : (0 : ℝ) ≤ Real.sqrt (sumSq v) := Real.sqrt_nonneg _
    have h2 : (0 : ℝ) < epsNorm := by norm_num [epsNorm]
    unfold normDenom
    linarith
  have hz : ∀ n : Nat, normalise1 (List.replicate n 0) = List.replicate n 0 := by
    intro n
    unfold normalise1
    rw [List.map_replicate, zero_div]
  refine ⟨hd, hz, ?_⟩
  intro e n
  rw [hz]
  exact dotR_replicate_zero e n

/-- `apply_answer` returns a permutation of the per-candidate updates (the
sort reorders, adds and drops nothing). -/
lemma apply_answer_perm (answer_yes : Bool) (keywords : List String)
    (cands : List NarrowCand) :
    (apply_answer answer_yes keywords cands).Perm (cands.map (applyDelta answer_yes keywords)) :=
  List.perm_insertionSort _ _

/-- C5. Each candidate's similarity changes by exactly
`±min(0.15, 0.07·hits)` (positive on Yes, negative on No), so no single
answer moves a similarity by more than 0.15; the returned list is the
sorted permutation of the updated candidates. -/
theorem c5_apply_answer_delta :
    ∀ (answer_yes : Bool) (keywords : List String) (cands : List NarrowCand)
      (c : NarrowCand),
    (apply_answer answer_yes keywords cands).Perm (cands.map (applyDelta answer_yes keywords)) ∧
    (applyDelta answer_yes keywords c).similarity - c.similarity =
      (if answer_yes then (1 : ℚ) else -1) * min CAP (BOOST * hitCount keywords c) ∧
    |(applyDelta answer_yes keywords c).similarity - c.similarity| ≤ CAP := by
  intro yes kws cands c
  have h0 : (0 : ℚ) ≤ min CAP (BOOST * hitCount kws c) := by
    apply le_min
    · norm_num [CAP]
    · have : (0 : ℚ) ≤ (hitCount kws c : ℚ) := Nat.cast_nonneg _
      have hb : (0 : ℚ) ≤ BOOST := by norm_num [BOOST]
      positivity
  have h1 : min CAP (BOOST * hitCount kws c) ≤ CAP := min_le_left _ _
  refine ⟨apply_answer_perm yes kws cands, ?_, ?_⟩
  · unfold applyDelta
    cases yes <;> simp
  · have hb2 : (0 : ℚ) ≤ BOOST * hitCount kws c := by
      have : (0 : ℚ) ≤ (hitCount kws c : ℚ) := Nat.cast_nonneg _
      have hb : (0 : ℚ) ≤ BOOST := by norm_num [BOOST]
      positivity
    have hc : (0 : ℚ) < CAP := by norm_num [CAP]
    unfold applyDelta
    cases yes <;> simp [abs_le, le_min_iff, min_le_iff] <;> constructor <;> linarith

/-- C9. `apply_answer` touches only `similarity`: every other field of
every candidate is preserved by the update, and the result is a
permutation of the updated candidates. -/
theorem c9_apply_answer_frame :
    ∀ (answer_yes : Bool) (keywords : List String) (cands : List NarrowCand)
      (c : NarrowCand),
    (apply_answer answer_yes keywords cands).Perm (cands.map (applyDelta answer_yes keywords)) ∧
    (applyDelta answer_yes keywords c).component = c.component ∧
    (applyDelta answer_yes keywords c).model = c.model ∧
    (applyDelta answer_yes keywords c).matched_fault_description = c.matched_fault_description ∧
    (applyDelta answer_yes keywords c).fault_description = c.fault_description ∧
    (applyDelta answer_yes keywords c).root_cause = c.root_cause ∧
    (applyDelta answer_yes keywords c).corrective_action = c.corrective_action := by
  intro yes kws cands c
  exact ⟨apply_answer_perm yes kws cands, rfl, rfl, rfl, rfl, rfl, rfl⟩

/-- Three candidates with similarities 0.9, 0.6, 0.5: the top-2 gap is 0.3,
beyond `GAP_GOOD`. -/
def exCands3 : List NarrowCand :=
  [{ defaultNarrowCand with similarity := 9 / 10 },
   { defaultNarrowCand with similarity := 6 / 10 },
   { defaultNarrowCand with similarity := 1 / 2 }]

/-- C6 counterexample. At `step = 1` with three candidates whose top-2 gap
is ≥ 0.15, the claimed policy keeps all three (only "truncate to top 5"
applies), but the answer handler's third branch fires `should_stop` and
truncates to the single top candidate — before step 3. -/
theorem c6_counterexample :
    pruneAfterAnswer exCands3 1 ≠ specPolicyPrune exCands3 1 ∧
    (pruneAfterAnswer exCands3 1).length = 1 ∧
    (specPolicyPrune exCands3 1).length = 3 := by
  have hs : should_stop exCands3 1 = true := by
    simp [should_stop, exCands3, defaultNarrowCand, SHORTLIST_COUNT, NARROW_MAX_STEPS,
      GAP_GOOD]
    norm_num
  have h2 : pruneStage2 exCands3 1 = exCands3 := by
    simp [pruneStage2, pruneStage1, exCands3]
  have h3 : pruneAfterAnswer exCands3 1 = exCands3.take 1 := by
    unfold pruneAfterAnswer pruneStage3
    rw [h2, if_pos ⟨by norm_num [exCands3], Or.inr hs⟩]
  have hspec : specPolicyPrune exCands3 1 = exCands3 := rfl
  rw [h3, hspec]
  refine ⟨?_, rfl, rfl⟩
  simp [exCands3]

lemma pruneStage1_isPre (c : List NarrowCand) (s : Nat) : pruneStage1 c s <+: c := by
  unfold pruneStage1
  split
  · exact List.take_prefix _ _
  · exact List.prefix_refl _

lemma pruneStage2_isPre (c : List NarrowCand) (s : Nat) :
    pruneStage2 c s <+: pruneStage1 c s := by
  unfold pruneStage2
  split
  · exact List.take_prefix _ _
  · exact List.prefix_refl _

lemma pruneStage3_isPre (c : List NarrowCand) (s : Nat) :
    pruneStage3 c s <+: pruneStage2 c s := by
  unfold pruneStage3
  split
  · exact List.take_prefix _ _
  · exact List.prefix_refl _

lemma pruneStage1_len (c : List NarrowCand) (s : Nat) (h : 1 ≤ s) :
    (pruneStage1 c s).length ≤ 5 := by
  unfold pruneStage1
  by_cases hc : 5 < c.length ∧ 1 ≤ s
  · rw [if_pos hc]; exact List.length_take_le _ _
  · rw [if_neg hc]; omega

lemma pruneStage2_len (c : List NarrowCand) (s : Nat) (h : 2 ≤ s) :
    (pruneStage2 c s).length ≤ 3 := by
  unfold pruneStage2
  by_cases hc : 3 < (pruneStage1 c s).length ∧ 2 ≤ s
  · rw [if_pos hc]; exact List.length_take_le _ _
  · rw [if_neg hc]; omega

lemma pruneStage3_len (c : List NarrowCand) (s : Nat)
    (h : 3 ≤ s ∨ should_stop (pruneStage2 c s) s = true) :
    (pruneStage3 c s).length ≤ 1 := by
  unfold pruneStage3
  by_cases hc : 1 < (pruneStage2 c s).length ∧
      (3 ≤ s ∨ should_stop (pruneStage2 c s) s = true)
  · rw [if_pos hc]; exact List.length_take_le _ _
  · rw [if_neg hc]
    rcases Nat.lt_or_ge 1 (pruneStage2 c s).length with hl | hl
    · exact absurd ⟨hl, h⟩ hc
    · exact hl

/-- C6 amended. The answer handler prunes per the progressive policy
*plus* an extra clause: it truncates to the single top candidate as soon
as `step ≥ 3` **or** `should_stop` holds of the current shortlist (top-2
gap ≥ 0.15 from step 1 on, step budget exhausted, or ≤ 1 candidate left);
no truncation beyond these happens. Consequently the answer handler never
reaches DONE with more than one candidate — a multi-candidate tie at DONE
can only arise outside this handler (e.g. the no-proposal path). -/
theorem c6_pruning_amended :
    ∀ (cands : List NarrowCand) (step : Nat),
    (pruneAfterAnswer cands step <+: cands) ∧
    (1 ≤ step → (pruneAfterAnswer cands step).length ≤ 5) ∧
    (2 ≤ step → (pruneAfterAnswer cands step).length ≤ 3) ∧
    (3 ≤ step → (pruneAfterAnswer cands step).length ≤ 1) ∧
    (should_stop (pruneStage2 cands step) step = true →
      (pruneAfterAnswer cands step).length ≤ 1) ∧
    (¬ 3 ≤ step → should_stop (pruneStage2 cands step) step = false →
      pruneAfterAnswer cands step = pruneStage2 cands step) ∧
    ((pruneAfterAnswer cands step).length ≤ 1 ∨ doneAfterAnswer cands step = false) := by
  intro c s
  have hpre : pruneAfterAnswer c s <+: c :=
    ((pruneStage3_isPre c s).trans (pruneStage2_isPre c s)).trans (pruneStage1_isPre c s)
  have hlen12 : (pruneAfterAnswer c s).length ≤ (pruneStage2 c s).length :=
    (pruneStage3_isPre c s).length_le
  have hlen23 : (pruneStage2 c s).length ≤ (pruneStage1 c s).length :=
    (pruneStage2_isPre c s).length_le
  refine ⟨hpre, ?_, ?_, ?_, ?_, ?_, ?_⟩
  · intro h
    exact le_trans (le_trans hlen12 hlen23) (pruneStage1_len c s h)
  · intro h
    exact le_trans hlen12 (pruneStage2_len c s h)
  · intro h
    exact pruneStage3_len c s (Or.inl h)
  · intro h
    exact pruneStage3_len c s (Or.inr h)
  · intro h3 hss
    unfold pruneAfterAnswer pruneStage3
    rw [if_neg]
    rintro ⟨-, h | h⟩
    · exact h3 h
    · rw [hss] at h
      exact Bool.false_ne_true h
  · by_cases hl : (pruneAfterAnswer c s).length ≤ 1
    · exact Or.inl hl
    · right
      unfold doneAfterAnswer
      unfold pruneAfterAnswer pruneStage3 at hl ⊢
      by_cases hc : 1 < (pruneStage2 c s).length ∧
          (3 ≤ s ∨ should_stop (pruneStage2 c s) s = true)
      · rw [if_pos hc] at hl
        exact absurd (List.length_take_le _ _) hl
      · rw [if_neg hc] at hl ⊢
        have hgt : 1 < (pruneStage2 c s).length := Nat.lt_of_not_le hl
        have hss : should_stop (pruneStage2 c s) s = false := by
          cases hb : should_stop (pruneStage2 c s) s
          · rfl
          · exact absurd ⟨hgt, Or.inr hb⟩ hc
        simp [hss, hl]

/-- A concrete float rendering for evaluating `metaJson` at concrete
stores (the exact digits a float prints as are irrelevant to the
atomicity question). -/
def numStr0 : ℝ → String := fun _ => "0"

/-- A concrete stored row for the save counterexample. -/
def demoMetaRow : MetaRow :=
  { component := "pump", model := some "m1", fault_description := "loud vibration",
    root_cause := "bearing wear", corrective_action := "replace bearing",
    embedding := [] }

/-- C3. The spec claims `save` writes to a temporary location and renames
into place, so no crash point shows a truncated artifact. In the code,
`save` opens `META_PATH` itself with mode `"w"` (truncating it) and then
writes; the crash point right after the `open` leaves the file empty —
a state that is neither the previously readable content (here the dump of
an empty store, `"[]"`) nor the new content. -/
theorem c3_save_truncates_in_place :
    some ([] : List Char) ∈
      saveDiskStates (some (metaJson numStr0 []).toList)
        (metaJson numStr0 [demoMetaRow]).toList ∧
    some ([] : List Char) ≠ some (metaJson numStr0 []).toList ∧
    some ([] : List Char) ≠ some (metaJson numStr0 [demoMetaRow]).toList := by
  refine ⟨?_, by decide, by decide⟩
  unfold saveDiskStates
  refine List.mem_cons_of_mem _ (List.mem_map.mpr ⟨0, ?_, rfl⟩)
  simp

/-- Mapping a left-projecting function over a `zipWith` of equal-length
lists sees only the left list. -/
lemma map_zipWith_left {α β γ δ : Type} (f : α → β → γ) (g : γ → δ) (h : α → δ)
    (hfg : ∀ a b, g (f a b) = h a) :
    ∀ (as : List α) (bs : List β), bs.length = as.length →
      (List.zipWith f as bs).map g = as.map h := by
  intro as
  induction as with
  | nil => intro bs _; simp
  | cons a as ih =>
    intro bs hb
    cases bs with
    | nil => simp at hb
    | cons b bs => simp [hfg, ih bs (by simpa using hb)]

/-- A trivial embedder for concrete evaluation (the embedding's content is
irrelevant to de-duplication). -/
def zeroEmbed : String → List ℝ := fun _ => []

/-- A valid upload row, duplicated in the counterexample batch. -/
def dupUploadRow : UploadRow :=
  { component := "pump", fault_description := "loud vibration",
    root_cause := "bearing wear", corrective_action := "replace bearing" }

/-- The same case as a CSV row (for the build path). -/
def dupCsvRow : CsvRow :=
  { component := "pump", model := "", fault_description := "loud vibration",
    root_cause := "bearing wear", corrective_action := "replace bearing" }

/-- C4 counterexample. A batch containing the same (valid, new) record
twice is stored twice by `/ingest` on an empty store — the de-duplication
only compares against already-stored entries — and an initial build from a
CSV with a duplicated `fault_description` stores both copies as well: in
both cases the stored descriptions are not pairwise distinct. -/
theorem c4_counterexample :
    ¬ ((ingestMeta zeroEmbed [] [dupUploadRow, dupUploadRow]).map
        (fun m => m.fault_description)).Nodup ∧
    ¬ ((buildMeta zeroEmbed [dupCsvRow, dupCsvRow]).map
        (fun m => m.fault_description)).Nodup := by
  have h1 : (ingestMeta zeroEmbed [] [dupUploadRow, dupUploadRow]).map
      (fun m => m.fault_description) = ["loud vibration", "loud vibration"] := by rfl
  have h2 : (buildMeta zeroEmbed [dupCsvRow, dupCsvRow]).map
      (fun m => m.fault_description) = ["loud vibration", "loud vibration"] := by rfl
  rw [h1, h2]
  constructor <;> simp

/-- C4 amended. De-duplication is only against already-stored entries:
`/ingest` appends exactly the valid rows whose `fault_description` is not
yet stored (so a record matching an existing one adds 0, and an
all-duplicate batch leaves the store unchanged); store-wide uniqueness of
`fault_description` holds after a batch only when the stored descriptions
were already unique and the batch's valid rows carry pairwise-distinct
descriptions — a batch duplicating a description within itself (or a
non-deduplicated initial CSV build) can store duplicates. -/
theorem c4_dedup_amended :
    ∀ (embed_texts : String → List ℝ) (meta : List MetaRow) (rows : List UploadRow),
    ((ingestMeta embed_texts meta rows).map (fun m => m.fault_description) =
      meta.map (fun m => m.fault_description) ++
      (ingestNewRows meta rows).map (fun r => r.fault_description)) ∧
    (∀ r ∈ ingestNewRows meta rows,
      ¬ r.fault_description ∈ meta.map (fun m => m.fault_description)) ∧
    ((∀ r ∈ ingestValidRows rows,
        r.fault_description ∈ meta.map (fun m => m.fault_description)) →
      ingestMeta embed_texts meta rows = meta) ∧
    ((meta.map (fun m => m.fault_description)).Nodup →
      ((ingestValidRows rows).map (fun r => r.fault_description)).Nodup →
      ((ingestMeta embed_texts meta rows).map (fun m => m.fault_description)).Nodup) := by
  intro embed_texts meta rows
  have hA : ∀ rs : List UploadRow,
      (addMetaUpload embed_texts meta rs).map (fun m => m.fault_description) =
      meta.map (fun m => m.fault_description) ++ rs.map (fun r => r.fault_description) := by
    intro rs
    unfold addMetaUpload
    rw [List.map_append]
    congr 1
    refine map_zipWith_left _ (fun m : MetaRow => m.fault_description)
      (fun r : UploadRow => r.fault_description) (fun a b => rfl) rs _ ?_
    simp [normalise2]
  have hB : ∀ r ∈ ingestNewRows meta rows,
      ¬ r.fault_description ∈ meta.map (fun m => m.fault_description) := by
    intro r hr
    unfold ingestNewRows at hr
    rw [List.mem_filter] at hr
    simpa using hr.2
  refine ⟨hA _, hB, ?_, ?_⟩
  · intro hall
    have hnil : ingestNewRows meta rows = [] := by
      unfold ingestNewRows
      rw [List.filter_eq_nil_iff]
      intro r hr
      simpa using hall r hr
    unfold ingestMeta
    rw [hnil]
    simp [addMetaUpload, normalise2]
  · intro hmeta hvalid
    rw [show ingestMeta embed_texts meta rows = addMetaUpload embed_texts meta
        (ingestNewRows meta rows) from rfl, hA]
    rw [List.nodup_append]
    refine ⟨hmeta, ?_, ?_⟩
    · have hsub : List.Sublist
          ((ingestNewRows meta rows).map (fun r => r.fault_description))
          ((ingestValidRows rows).map (fun r => r.fault_description)) := by
        unfold ingestNewRows
        exact (List.filter_sublist _).map _
      exact hvalid.sublist hsub
    · intro a ha hb
      rcases List.mem_map.mp hb with ⟨r, hr, hra⟩
      exact hB r hr (hra ▸ ha)

/-- `dropWhile` is idempotent. -/
lemma dropWhile_idem {α : Type} (p : α → Bool) (l : List α) :
    (l.dropWhile p).dropWhile p = l.dropWhile p := by
  induction l with
  | nil => simp
  | cons a l ih =>
    cases h : p a
    · simp [List.dropWhile_cons, h]
    · simp [List.dropWhile_cons, h, ih]

/-- The head surviving a `dropWhile` does not satisfy the predicate. -/
lemma dropWhile_head_false {α : Type} (p : α → Bool) (l : List α) :
    ∀ {a t}, l.dropWhile p = a :: t → p a = false := by
  induction l with
  | nil => intro a t h; simp at h
  | cons c l ih =>
    intro a t h
    rw [List.dropWhile_cons] at h
    cases hc : p c
    · rw [hc] at h
      simp at h
      rw [← h.1]
      exact hc
    · rw [hc] at h
      simp at h
      exact ih h

/-- Python `strip()` is idempotent. -/
lemma pyTrimL_idem (l : List Char) : pyTrimL (pyTrimL l) = pyTrimL l := by
  have hB : (pyTrimL l).dropWhile isPyWS = pyTrimL l := by
    cases hcr : pyTrimL l with
    | nil => simp
    | cons b B =>
      obtain ⟨t, ht⟩ := List.dropWhile_suffix (l := (l.dropWhile isPyWS).reverse) isPyWS
      have hA2 : l.dropWhile isPyWS = pyTrimL l ++ t.reverse := by
        have h2 := congrArg List.reverse ht
        rw [List.reverse_append, List.reverse_reverse] at h2
        rw [← h2]
        rfl
      have hball : isPyWS b = false := by
        apply dropWhile_head_false (p := isPyWS) (l := l)
        rw [hA2, hcr]
        rfl
      simp [List.dropWhile_cons, hball]
  unfold pyTrimL
  rw [show pyTrimL l = ((l.dropWhile isPyWS).reverse.dropWhile isPyWS).reverse from rfl] at hB
  rw [hB, List.reverse_reverse, dropWhile_idem]

/-- A non-empty list stays non-empty under `pyLowerL`. -/
lemma pyLowerL_ne_nil {l : List Char} (h : l ≠ []) : pyLowerL l ≠ [] := by
  unfold pyLowerL
  simpa using h

/-- What acceptance in one attempt of `propose_question` means
(`llm_narrow.py:73-76`). -/
lemma attemptResult_some (reply : LLMReply) (bkwSet bqSet : List (List Char))
    (q : List Char) (kws : List (List Char))
    (h : attemptResult reply bkwSet bqSet = some (q, kws)) :
    q = parsedQuestion reply ∧ kws = (parsedKeywords reply).take 6 ∧
    q.isEmpty = false ∧ similarQuestion q bqSet = false ∧
    overlapsBanned (parsedKeywords reply) bkwSet = false := by
  unfold attemptResult at h
  split at h
  · next hcond =>
    simp only [Option.some.injEq, Prod.mk.injEq] at h
    simp only [Bool.and_eq_true, Bool.not_eq_true'] at hcond
    obtain ⟨⟨h1, h2⟩, h3⟩ := hcond
    refine ⟨h.1.symm, h.2.symm, ?_, ?_, h3⟩
    · rw [← h.1]; exact h1
    · rw [← h.1]; exact h2
  · exact absurd h (by simp)

/-- `findSome?` only looks at the function's values on the list. -/
lemma findSome?_congr {α β : Type} (f g : α → Option β) (l : List α)
    (h : ∀ a ∈ l, f a = g a) : l.findSome? f = l.findSome? g := by
  induction l with
  | nil => rfl
  | cons a l ih =>
    rw [List.findSome?_cons, List.findSome?_cons, h a (by simp),
      ih (fun a ha => h a (by simp [ha]))]

/-- C7. Whenever `propose_question` returns a question, its trimmed text is
non-empty (and already trimmed, so the ban sets accumulated from earlier
turns always satisfy the non-blank hypothesis), its case-folded text
neither equals nor contains nor is contained in the fold of any (non-blank)
banned question, and no returned keyword case-foldedly equals a (non-blank)
banned keyword; moreover the outcome depends only on the first three
provider replies — the loop makes at most 3 attempts before giving up. -/
theorem c7_propose_respects_bans :
    ∀ (p p₂ : Nat → LLMReply) (bkw bq : List (List Char)),
    ((∀ b ∈ bq, pyTrimL b ≠ []) →
      ∀ (q : List Char) (kws : List (List Char)),
      propose_question p bkw bq = some (q, kws) →
      (q ≠ [] ∧ pyTrimL q = q) ∧
      (∀ b ∈ bq,
        ((pyFoldL q == pyFoldL b) || isSubL (pyFoldL q) (pyFoldL b) ||
         isSubL (pyFoldL b) (pyFoldL q)) = false) ∧
      (∀ k ∈ kws, ∀ bk ∈ bkw, pyTrimL bk ≠ [] → pyFoldL k ≠ pyFoldL bk)) ∧
    ((∀ n, n < 3 → p n = p₂ n) →
      propose_question p bkw bq = propose_question p₂ bkw bq) ∧
    ((∀ n, n < 3 →
        attemptResult (p n) (bannedSetL bkw) (bannedSetL bq) = none) →
      propose_question p bkw bq = none) := by
  intro p p₂ bkw bq
  refine ⟨?_, ?_, ?_⟩
  · intro hbq q kws hsome
    unfold propose_question at hsome
    obtain ⟨n, -, hrep⟩ := List.exists_of_findSome?_eq_some hsome
    obtain ⟨hq, hkws, hne, hsim, hov⟩ :=
      attemptResult_some (p n) (bannedSetL bkw) (bannedSetL bq) q kws hrep
    have hqtrim : pyTrimL q = q := by
      rw [hq]
      exact pyTrimL_idem _
    have hqne : q ≠ [] := List.isEmpty_eq_false.mp hne
    have hfoldq : pyFoldL q = pyLowerL q := by
      unfold pyFoldL
      rw [hqtrim]
    have hfoldq_ne : pyFoldL q ≠ [] := by
      rw [hfoldq]
      exact pyLowerL_ne_nil hqne
    refine ⟨⟨hqne, hqtrim⟩, ?_, ?_⟩
    · intro b hb
      unfold similarQuestion at hsim
      have hie : (pyFoldL q).isEmpty = false := by
        simpa [List.isEmpty_eq_false] using hfoldq_ne
      rw [hie] at hsim
      simp only [Bool.false_eq_true, if_false] at hsim
      rw [List.any_eq_false] at hsim
      have hmem : pyFoldL b ∈ bannedSetL bq := by
        unfold bannedSetL
        refine List.mem_map.mpr ⟨b, List.mem_filter.mpr ⟨hb, ?_⟩, rfl⟩
        simpa [List.isEmpty_eq_false] using hbq b hb
      simpa using hsim _ hmem
    · intro k hk bk hbk hbkne
      unfold overlapsBanned at hov
      rw [List.any_eq_false] at hov
      have hkmem : k ∈ parsedKeywords (p n) := by
        rw [hkws] at hk
        exact List.take_subset _ _ hk
      have hnotin := hov _ hkmem
      intro heq
      apply hnotin
      have hmem : pyFoldL bk ∈ bannedSetL bkw := by
        unfold bannedSetL
        refine List.mem_map.mpr ⟨bk, List.mem_filter.mpr ⟨hbk, ?_⟩, rfl⟩
        simpa [List.isEmpty_eq_false] using hbkne
      rw [heq]
      simpa using hmem
  · intro hag
    unfold propose_question
    apply findSome?_congr
    intro n hn
    have : n < 3 := by
      simp at hn
      omega
    rw [hag n this]
  · intro hall
    unfold propose_question
    rw [List.findSome?_eq_none_iff]
    intro n hn
    have : n < 3 := by
      simp at hn
      omega
    exact hall n this

/-- The order the C8 claim asserts on search hits: strictly larger
similarity first; on equal similarity, the smaller insertion position
first. Stated from the claim, for comparison with what the code actually
guarantees. -/
def hitRel (a b : Nat × ℝ) : Prop := b.2 < a.2 ∨ (a.2 = b.2 ∧ a.1 < b.1)

/-- `keyRel` refines the non-strict descending order. -/
lemma keyRel_le {sims : List ℝ} {i j : Nat} (h : keyRel sims i j) :
    sims.getD j 0 ≤ sims.getD i 0 := by
  rcases h with h | ⟨h, -⟩
  · exact le_of_lt h
  · exact le_of_eq h.symm

/-- The determinization `argsortDesc` is one order numpy's contract
admits. -/
lemma argsortDesc_valid (sims : List ℝ) : ValidDescOrder sims (argsortDesc sims) := by
  refine ⟨List.perm_insertionSort _ _, ?_⟩
  exact List.Pairwise.imp (fun h => keyRel_le h)
    (List.sorted_insertionSort (keyRel sims) (List.range sims.length))

/-- The function `search` realises one admissible behaviour of the
relational semantics `searchSpec`. -/
lemma searchSpec_search (meta : List MetaRow) (query_vec : List ℝ) (top_k : Nat)
    (component : Option String) :
    searchSpec meta query_vec top_k component (search meta query_vec top_k component) := by
  unfold searchSpec
  split
  · next h =>
    unfold search
    rw [if_pos h]
  · next h =>
    split
    · next h2 =>
      unfold search
      rw [if_neg h, if_pos h2]
    · next h2 =>
      split
      · next h3 =>
        unfold search
        rw [if_neg h, if_neg h2, if_pos h3]
      · next h3 =>
        refine ⟨argsortDesc (searchSims meta query_vec component),
          argsortDesc_valid _, ?_⟩
        unfold search
        rw [if_neg h, if_neg h2, if_neg h3]

/-- C8 amended. Under the faithful semantics — any argsort order numpy's
contract admits — every hit list `search` can return has at most `top_k`
entries and is sorted by non-increasing similarity. The relative order of
entries with exactly equal similarity is unspecified (`np.argsort` is
called with its default unstable quicksort), so a tie-break by ascending
insertion position is not guaranteed — see the counterexample. -/
theorem c8_search_topk_sorted_amended :
    ∀ (meta : List MetaRow) (query_vec : List ℝ) (top_k : Nat)
      (component : Option String) (res : Except PyErr (List (Nat × ℝ))),
    searchSpec meta query_vec top_k component res →
    onOk (fun lst => lst.length ≤ top_k ∧
      lst.Pairwise (fun a b : Nat × ℝ => b.2 ≤ a.2)) res := by
  intro meta qv k comp res hspec
  unfold searchSpec at hspec
  split at hspec
  · subst hspec
    exact ⟨Nat.zero_le _, List.Pairwise.nil⟩
  · split at hspec
    · subst hspec
      exact trivial
    · split at hspec
      · subst hspec
        exact trivial
      · obtain ⟨ord, ⟨-, hsorted⟩, rfl⟩ := hspec
        refine ⟨?_, ?_⟩
        · rw [List.length_map, List.length_take]
          exact min_le_left _ _
        · rw [List.pairwise_map]
          exact List.Pairwise.imp (fun h => h)
            (List.Pairwise.sublist (List.take_sublist _ _) hsorted)

/-- A stored case whose embedding ties with another entry's. -/
def tiedRowA : MetaRow :=
  { component := "pump", model := none, fault_description := "loud vibration",
    root_cause := "bearing wear", corrective_action := "replace bearing",
    embedding := [1] }

/-- A second stored case with the identical embedding (C4 shows the store
can even hold outright duplicates), so its similarity ties with
`tiedRowA`'s on every query. -/
def tiedRowB : MetaRow :=
  { component := "motor", model := none, fault_description := "burnt smell",
    root_cause := "winding short", corrective_action := "rewind motor",
    embedding := [1] }

/-- A store with two entries of exactly equal similarity on any query. -/
def metaTied : List MetaRow := [tiedRowA, tiedRowB]

/-- Witness for the amended C8 theorem at a concrete input: the
hypothesis `searchSpec` is discharged by `searchSpec_search` at the
two-entry tied store with query `[1]`, `top_k = 2`, no filter. -/
theorem c8_amended_witness :
    onOk (fun lst => lst.length ≤ 2 ∧
      lst.Pairwise (fun a b : Nat × ℝ => b.2 ≤ a.2))
      (search metaTied [(1 : ℝ)] 2 none) :=
  c8_search_topk_sorted_amended metaTied [(1 : ℝ)] 2 none
    (search metaTied [(1 : ℝ)] 2 none)
    (searchSpec_search metaTied [(1 : ℝ)] 2 none)

/-- C8 counterexample. On the tied store, the two scores are exactly
equal, and the order `[1, 0]` satisfies everything numpy guarantees of
`np.argsort(-sims)` (`ValidDescOrder`): the program may therefore return
the tied pair with the **larger** insertion position first — an admissible
result of `search` (second conjunct) that violates the ascending-position
tie-break the claim asserts (third conjunct, `hitRel` being the claim's
order). -/
theorem c8_counterexample :
    ValidDescOrder (searchSims metaTied [(1 : ℝ)] none) [1, 0] ∧
    searchSpec metaTied [(1 : ℝ)] 2 none
      (Except.ok [(1, dotR [(1 : ℝ)] (normalise1 [(1 : ℝ)])),
                  (0, dotR [(1 : ℝ)] (normalise1 [(1 : ℝ)]))]) ∧
    ¬ List.Pairwise hitRel
      [((1 : Nat), dotR [(1 : ℝ)] (normalise1 [(1 : ℝ)])),
       ((0 : Nat), dotR [(1 : ℝ)] (normalise1 [(1 : ℝ)]))] := by
  have hlen2 : (searchSims metaTied [(1 : ℝ)] none).length = 2 := by
    simp [searchSims, searchVecs, searchIds, metaTied, truthy]
  have hvalid : ValidDescOrder (searchSims metaTied [(1 : ℝ)] none) [1, 0] := by
    constructor
    · rw [hlen2]
      have hr : List.range 2 = [0, 1] := rfl
      rw [hr]
      exact List.Perm.swap 0 1 []
    · refine List.Pairwise.cons ?_ ?_
      · intro j hj
        have hj0 : j = 0 := by simpa using hj
        subst hj0
        exact le_of_eq (by rfl)
      · simp
  refine ⟨hvalid, ?_, ?_⟩
  · unfold searchSpec
    rw [if_neg (by decide), if_neg (by decide), if_neg (by decide)]
    exact ⟨[1, 0], hvalid, by rfl⟩
  · intro h
    rw [List.pairwise_cons] at h
    have hrel := h.1 ((0 : Nat), dotR [(1 : ℝ)] (normalise1 [(1 : ℝ)])) (by simp)
    rcases hrel with hlt | ⟨-, hpos⟩
    · exact lt_irrefl _ hlt
    · simp at hpos

/-- Concrete run: a first reply repeating a banned question (and a banned
keyword) is rejected; the second, fresh proposal is returned trimmed with
lowercased keywords. -/
theorem propose_question_sanity :
    propose_question
      (fun n => if n = 0
        then { question := some "Is it leaking oil?".toList,
               keywords := ["leak".toList] }
        else { question := some " Is it overheating? ".toList,
               keywords := [" Hot ".toList] })
      ["leak".toList] ["is it leaking oil?".toList] =
      some ("Is it overheating?".toList, ["hot".toList]) := by decide

/-- Concrete run: when every reply repeats a banned question, the three
attempts are exhausted and no question is returned. -/
theorem propose_question_none_sanity :
    propose_question
      (fun _ => { question := some "Is it leaking oil?".toList, keywords := [] })
      [] ["is it leaking oil?".toList] = none := by decide
